import Mathlib

/-!
Verification of the `container-tester` repository core: the per-profile
pipeline (`generate_dockerfile` → `build_image` → `run_container`), the
batch runner `run_config`, the resource reaper (`remove_dockerfile`,
`remove_image`, `remove_container`), the resource namer
(`_get_tag_name`, container names), and the Dockerfile synthesizers
(`_dockerfile_template`, `_dockerfile_content`, `_get_template`).

The Python code is shallowly embedded: Python strings are Lean `String`s,
the container engine and the filesystem are explicit state
(`PState`), and the outcome of every external call (docker client
connection, image pull, directory resolution, file write, image build,
container run) is supplied by an oracle record `World`.  `sys.exit(1)` is
modelled as an `exited`/`exit` value that aborts the computation;
an exception escaping a stage function is modelled as a `raised` value.
-/

/-! ### Python string helpers -/

/-- Lines of a character list, splitting at every newline character.
This models how Python text is divided into lines (each `\n` terminates a
line; a trailing `\n` yields a final empty line, matching
`str.split("\n")`). -/
def splitNL : List Char → List (List Char)
  | [] => [[]]
  | c :: cs =>
    if c = '\n' then [] :: splitNL cs
    else
      match splitNL cs with
      | l :: ls => (c :: l) :: ls
      | [] => [[c]]

/-- The lines of a string, i.e. Python `s.split("\n")`. -/
def strLines (s : String) : List String :=
  (splitNL s.data).map (fun l => ⟨l⟩)

/-- Python `"\n".join(xs)`. -/
def joinNL : List String → String
  | [] => ""
  | [x] => x
  | x :: xs => x ++ "\n" ++ joinNL xs

/-- Decimal digit characters of a natural number, most significant first,
computed with explicit fuel (the first argument); any fuel above the value
gives the digits. -/
def toDecimalAux : Nat → Nat → List Char
  | 0, _ => []
  | fuel + 1, n =>
    if n < 10 then [Nat.digitChar n]
    else toDecimalAux fuel (n / 10) ++ [Nat.digitChar (n % 10)]

/-- Decimal digit characters of a natural number, most significant first.
This models the decimal rendering Python performs in an f-string such as
`f"{timestamp}"`. -/
def toDecimal (n : Nat) : List Char := toDecimalAux (n + 1) n

/-- Python `str(n)` / `f"{n}"` for a non-negative integer. -/
def natToString (n : Nat) : String := ⟨toDecimal n⟩

/-! ### Resource namer (`docker_backend._get_tag_name`, container names) -/

/-- `DockerBackend._get_tag_name`: `re.sub(r"[^a-zA-Z0-9]", "_", name)` —
every character outside `[a-zA-Z0-9]` is replaced by an underscore. -/
def get_tag_name (name : String) : String :=
  ⟨name.data.map (fun c => if c.isAlphanum then c else '_')⟩

/-- The container name built by `app.run_container` and
`DockerBackend.run`: `f"container_test_{image_tag}_{timestamp}"` with
`timestamp = int(time.time())`. -/
def container_name (image_tag : String) (timestamp : Nat) : String :=
  "container_test_" ++ image_tag ++ "_" ++ natToString timestamp

/-- The container name built by `factory.run_container`:
`f"container_test_{image_tag}"`.  The clock at the time of the call
(second argument) does not occur in the name. -/
def container_name_factory (image_tag : String) (_timestamp : Nat) : String :=
  "container_test_" ++ image_tag

/-- The (image tag, container name) pair a `DockerBackend.run` call uses at
clock value `t` when no explicit `image_tag` is passed: the tag defaults to
`_get_tag_name(self.os_name)` and the container name appends the
timestamp. -/
def backend_run_ids (os_name : String) (t : Nat) : String × String :=
  (get_tag_name os_name, container_name (get_tag_name os_name) t)

/-! ### Descriptor synthesizers -/

/-- `app._dockerfile_template(os_name, os_commands)`.  The function itself
queries the filesystem: `has_py = Path("pyproject.toml").exists()`; that
filesystem state is the explicit argument `has_pyproject` here.  The
f-string is transcribed line by line. -/
def dockerfile_template (os_name : String) (os_commands : List String)
    (has_pyproject : Bool) : String :=
  let deps : String :=
    if has_pyproject then "COPY pyproject.toml /app/pyproject.toml"
    else "# no pyproject detected"
  let cmds : String :=
    if os_commands.isEmpty then ""
    else joinNL (os_commands.map (fun cmd => "RUN " ++ cmd))
  "FROM " ++ os_name ++ "\n" ++ "\n" ++
  "COPY --from=ghcr.io/astral-sh/uv:latest /uv /uvx /bin/" ++ "\n" ++
  "WORKDIR /app" ++ "\n" ++ "\n" ++
  deps ++ "\n" ++ "\n" ++
  "ADD . /app" ++ "\n" ++ "\n" ++
  cmds ++ "\n"

/-- `factory._dockerfile_content(os_name, commands)`.  Again the marker
checks `Path("pyproject.toml").exists()` and `Path("uv.lock").exists()`
happen inside the function; they are the explicit arguments here. -/
def dockerfile_content (os_name : String) (commands : List String)
    (has_py has_lock : Bool) : String :=
  let dependencies : List String :=
    (if has_py then ["COPY pyproject.toml /app/pyproject.toml"] else []) ++
    (if has_lock then ["COPY uv.lock /app/uv.lock"] else [])
  let deps : String :=
    if dependencies.isEmpty then "# no pyproject/lock detected"
    else joinNL dependencies
  let cmds : String :=
    if commands.isEmpty then ""
    else joinNL (commands.map (fun cmd => "RUN " ++ cmd))
  let sync_cmd : String := if has_lock then "uv sync --locked" else "uv sync"
  "FROM " ++ os_name ++ "\n" ++ "\n" ++
  "COPY --from=ghcr.io/astral-sh/uv:latest /uv /uvx /bin/" ++ "\n" ++
  "WORKDIR /app" ++ "\n" ++ "\n" ++
  deps ++ "\n" ++ "\n" ++
  "ENV UV_LINK_MODE=copy" ++ "\n" ++
  "ADD . /app" ++ "\n" ++ "\n" ++
  "RUN " ++ sync_cmd ++ "\n" ++
  cmds ++ "\n"

/-- `DockerBackend._get_template(os_commands)`; `self.os_name` is the
verified base-image name. -/
def get_template (os_name : String) (os_commands : List String) : String :=
  let uv_copy : String := "COPY --from=ghcr.io/astral-sh/uv:latest /uv /uvx /bin/"
  let cmds : String :=
    if os_commands.isEmpty then ""
    else joinNL (os_commands.map (fun cmd => "RUN " ++ cmd))
  "FROM " ++ os_name ++ "\n" ++ uv_copy ++ "\n" ++ "WORKDIR /app" ++ "\n" ++
  "ADD . /app" ++ "\n" ++ cmds

/-! ### Resource reaper -/

/-- An engine-side container as seen through `client.containers.list`. -/
structure Container where
  name : String
  id : String
deriving DecidableEq

/-- The Dockerfile name `f"Dockerfile.{image_tag}"`. -/
def dfName (image_tag : String) : String := "Dockerfile." ++ image_tag

/-- `app.remove_container(client, container_id)`: iterate the engine's
container list, stop and remove the **first** container whose **name**
equals `container_id`, then `break`.  No match means no action.  Every
engine exception (`NotFound`, `APIError`) is caught and only logged, so
the function never raises; its value is the engine's new container
list. -/
def remove_container_app (container_id : String) : List Container → List Container
  | [] => []
  | c :: cs =>
    if c.name = container_id then cs
    else c :: remove_container_app container_id cs

/-- `DockerBackend.remove_container(container_id)`: identical loop, but the
match test is `container_id in (container.name, container.id)` — name
**or** id. -/
def remove_container_backend (container_id : String) : List Container → List Container
  | [] => []
  | c :: cs =>
    if c.name = container_id ∨ c.id = container_id then cs
    else c :: remove_container_backend container_id cs

/-- `DockerBackend.remove_image(image_tag)`: `client.images.remove` with
`force=True`.  A missing image raises `ImageNotFound`, which is caught and
only logged (`.ok` with the list unchanged).  An `APIError`/
`DockerException` from the engine while the image exists is re-raised as
`DockerException` (`.error`); `api_fault` says whether the engine faults
on this call. -/
def remove_image_backend (imgs : List String) (image_tag : String)
    (api_fault : Bool) : Except String (List String) :=
  if image_tag ∈ imgs then
    if api_fault then Except.error "Failed to remove Docker image."
    else Except.ok (imgs.erase image_tag)
  else Except.ok imgs

/-- `app.remove_image(client, image_tag)`: same engine call, but every
exception (including `APIError`) is caught and logged, so the caller never
sees an error; on an engine fault the image stays. -/
def remove_image_app (imgs : List String) (image_tag : String)
    (api_fault : Bool) : List String :=
  if image_tag ∈ imgs then
    if api_fault then imgs else imgs.erase image_tag
  else imgs

/-- `app.remove_dockerfile(image_tag, path)`: `resolve_dir_path` calls
`sys.exit(1)` on a filesystem fault (`resolve_ok = false` gives `none`);
otherwise the file is unlinked.  A missing file raises
`FileNotFoundError`, which the catch-all `except` clause swallows, so the
call never raises and an absent file leaves the filesystem unchanged. -/
def remove_dockerfile_app (resolve_ok : Bool) (files : List String)
    (image_tag : String) : Option (List String) :=
  if resolve_ok then some (files.erase (dfName image_tag)) else none

/-! ### Pipeline data model (`app.py`) -/

/-- One entry of the config list handed to `run_config` (a
`DockerConfig`). -/
structure Profile where
  image_tag : String
  os_name : String
  os_commands : List String
deriving DecidableEq

/-- Outcome of the engine's `images.build` call for a given tag, as the
world decides it.  Successful builds report the inspected metadata
(architecture, base OS, formatted size, labels) as strings. -/
inductive BuildOutcome where
  | ok (architecture base sizeStr labels : String)
  | buildError (log : String)
  | apiError (msg : String)
deriving DecidableEq

/-- Outcome of `containers.run` + `wait` for a given tag when the image
exists.  `caughtError` is a `ContainerError`/`ImageNotFound`/`APIError`
raised inside the `try` block (caught and turned into a result dict);
`raisesAfter` is an exception in the code after the `try` block (log
fetching / decoding), which propagates to the caller. -/
inductive RunOutcome where
  | ok (container_id cmdRecorded stdout stderr : String)
  | caughtError (msg : String)
  | raisesAfter (msg : String)
deriving DecidableEq

/-- The oracle for every external interaction of one `app.py` batch. -/
structure World where
  /-- `docker.from_env()` succeeds. -/
  connectOk : Bool
  /-- `client.images.pull(os_name)` succeeds (keyed by base-image name). -/
  pullOk : String → Bool
  /-- `_utils.resolve_dir_path(path)` succeeds. -/
  resolveOk : Bool
  /-- `Path("pyproject.toml").exists()` — read by `_dockerfile_template`. -/
  hasPyproject : Bool
  /-- Writing `Dockerfile.<tag>`: `none` = success, `some msg` = the
  rendered `OSError`/`TypeError`/`ValueError` text. -/
  writeErr : String → Option String
  /-- Engine build outcome, keyed by image tag. -/
  buildOut : String → BuildOutcome
  /-- Engine run outcome, keyed by image tag. -/
  runOut : String → RunOutcome
  /-- `int(time.time())` during the run stage. -/
  now : Nat
  /-- Images initially present on the engine. -/
  images0 : List String
  /-- Dockerfiles initially present in the target directory. -/
  files0 : List String
  /-- Containers initially present on the engine (names). -/
  containers0 : List String

/-- A stage call observed during a batch: entering `generate_dockerfile`,
`build_image` or `run_container` for a given image tag. -/
inductive Event where
  | generate (tag : String)
  | build (tag : String)
  | run (tag : String)
deriving DecidableEq

/-- Engine/filesystem state threaded through the batch, plus the trace of
stage calls made so far. -/
structure PState where
  images : List String
  files : List String
  containers : List String
  trace : List Event
deriving DecidableEq

/-- The state when the batch starts. -/
def World.initState (w : World) : PState :=
  ⟨w.images0, w.files0, w.containers0, []⟩

/-- Return value of `generate_dockerfile`: the dict
`{"name", "full_path", "os_name"}` on success, `{"stderr": msg}` on a
caught write failure. -/
inductive GenResult where
  | ok (name full_path os_name : String)
  | stderr (msg : String)
deriving DecidableEq

/-- Return value of `build_image`: the dict
`{"name", "os": {...}, "size", "labels"}` on success, `{"stderr": msg}`
on a caught failure. -/
inductive BuildResult where
  | ok (name architecture base sizeStr labels : String)
  | stderr (msg : String)
deriving DecidableEq

/-- Return value of `run_container`: the dict
`{"name", "container_id", "command", "stdout", "stderr"}` on success,
`{"stderr": msg}` on a caught failure. -/
inductive RunResult where
  | ok (name container_id cmd stdout stderr : String)
  | stderr (msg : String)
deriving DecidableEq

/-- The per-profile record `run_config`/`test_container` assemble:
`{"dockerfile": ..., "image": ..., "container": ...}`. -/
structure DockerInfo where
  dockerfile : GenResult
  image : BuildResult
  container : RunResult
deriving DecidableEq

/-- Result of a stage that can terminate the process (`sys.exit`). -/
inductive StageOut (α : Type) where
  | exited (s : PState) (code : Nat)
  | ok (s : PState) (r : α)
deriving DecidableEq

/-- Result of the run stage, which cannot `sys.exit` but can let an
exception escape. -/
inductive RunStageOut where
  | raised (s : PState) (msg : String)
  | ok (s : PState) (r : RunResult)
deriving DecidableEq

/-- The message rendered by `run_config`/`run_container` when
`containers.run` raises `ImageNotFound` because the requested tag does not
exist on the engine (`f"{type(e).__name__}:\x7bn{e}"`; the SDK's message
text is abstracted to the tag). -/
def imageNotFoundMsg (image_tag : String) : String :=
  "ImageNotFound:" ++ "\n" ++ image_tag

/-- The default command substitution `command or 'echo "Container is
running"'`. -/
def default_command (command : String) : String :=
  if command = "" then "echo \"Container is running\"" else command

/-- `app.generate_dockerfile(client, os_name, image_tag, path,
os_commands)`.  `_image_exists` pulls the base image and calls
`sys.exit(1)` on failure; a successful pull makes the base image present
on the engine.  `resolve_dir_path(path, mkdir=True)` calls `sys.exit(1)`
on failure.  A caught write failure returns the `stderr` dict; success
writes `Dockerfile.<tag>` and returns the metadata dict. -/
def generate_dockerfile (w : World) (s : PState) (os_name image_tag path : String) :
    StageOut GenResult :=
  let s := { s with trace := s.trace ++ [Event.generate image_tag] }
  if w.pullOk os_name then
    let s := { s with images := if os_name ∈ s.images then s.images else s.images ++ [os_name] }
    if w.resolveOk then
      match w.writeErr image_tag with
      | some msg => StageOut.ok s (GenResult.stderr msg)
      | none =>
        let df := dfName image_tag
        let s := { s with files := if df ∈ s.files then s.files else s.files ++ [df] }
        StageOut.ok s (GenResult.ok df (path ++ "/" ++ df) os_name)
    else StageOut.exited s 1
  else StageOut.exited s 1

/-- `app.build_image(client, image_tag, path, clean=False)`.
`resolve_dir_path(path)` may `sys.exit(1)`.  A successful engine build
makes the tag present and returns the metadata dict; `BuildError` is
rendered as `f"BuildError:\x7bn{e.msg}"`, other caught errors as an opaque
message.  With `clean=True` the image is removed again after the build. -/
def build_image (w : World) (s : PState) (image_tag : String) (clean : Bool) :
    StageOut BuildResult :=
  let s := { s with trace := s.trace ++ [Event.build image_tag] }
  if w.resolveOk then
    match w.buildOut image_tag with
    | BuildOutcome.ok arch base sizeStr labels =>
      let s := { s with images := if image_tag ∈ s.images then s.images else s.images ++ [image_tag] }
      let s := if clean then { s with images := remove_image_app s.images image_tag false } else s
      StageOut.ok s (BuildResult.ok image_tag arch base sizeStr labels)
    | BuildOutcome.buildError log =>
      StageOut.ok s (BuildResult.stderr ("BuildError:" ++ "\n" ++ log))
    | BuildOutcome.apiError msg => StageOut.ok s (BuildResult.stderr msg)
  else StageOut.exited s 1

/-- `app.run_container(client, image_tag, command, clean)`.  The container
name appends `int(time.time())`.  Running a tag that is not present on the
engine raises `ImageNotFound` inside the `try` block (caught).  On a
successful `wait` the container exists; the post-`try` code may raise
(`raisesAfter`), which propagates with the container left behind.  With
`clean=True` the container is removed again by name. -/
def run_container (w : World) (s : PState) (image_tag command : String) (clean : Bool) :
    RunStageOut :=
  let s := { s with trace := s.trace ++ [Event.run image_tag] }
  let _cmd := default_command command
  let name := container_name image_tag w.now
  if image_tag ∈ s.images then
    match w.runOut image_tag with
    | RunOutcome.ok cid cmdRec sout serr =>
      let s := { s with containers := s.containers ++ [name] }
      let s := if clean then { s with containers := s.containers.erase name } else s
      RunStageOut.ok s (RunResult.ok name cid cmdRec sout serr)
    | RunOutcome.caughtError msg => RunStageOut.ok s (RunResult.stderr msg)
    | RunOutcome.raisesAfter msg =>
      let s := { s with containers := s.containers ++ [name] }
      RunStageOut.raised s msg
  else RunStageOut.ok s (RunResult.stderr (imageNotFoundMsg image_tag))

/-- Result of one iteration of the `run_config` loop body. -/
inductive StepRes where
  | exited (code : Nat)
  | raised (msg : String)
  | ok (info : DockerInfo)
deriving DecidableEq

/-- One iteration of the `run_config` loop for one profile: the three
stages are called unconditionally in sequence, the info dict is
assembled, and with `clean=True` the Dockerfile, the built image and the
base image are removed again (`_remove_dangling` does not change this
state model). -/
def runProfile (w : World) (s : PState) (cfg : Profile) (path command : String)
    (clean : Bool) : PState × StepRes :=
  match generate_dockerfile w s cfg.os_name cfg.image_tag path with
  | StageOut.exited s code => (s, StepRes.exited code)
  | StageOut.ok s gen =>
    match build_image w s cfg.image_tag false with
    | StageOut.exited s code => (s, StepRes.exited code)
    | StageOut.ok s bld =>
      match run_container w s cfg.image_tag command clean with
      | RunStageOut.raised s msg => (s, StepRes.raised msg)
      | RunStageOut.ok s runr =>
        let info : DockerInfo := ⟨gen, bld, runr⟩
        if clean then
          match remove_dockerfile_app w.resolveOk s.files cfg.image_tag with
          | none => (s, StepRes.exited 1)
          | some files =>
            let s := { s with files := files }
            let s := { s with images := remove_image_app s.images cfg.image_tag false }
            let s := { s with images := remove_image_app s.images cfg.os_name false }
            (s, StepRes.ok info)
        else (s, StepRes.ok info)

/-- Result of the whole `for` loop of `run_config`. -/
inductive LoopRes where
  | exited (code : Nat)
  | raised (msg : String)
  | done (infos : List DockerInfo)
deriving DecidableEq

/-- The `for` loop of `run_config`: results are appended in input order;
a `sys.exit` aborts the process, an escaping exception aborts the loop. -/
def runLoop (w : World) (path command : String) (clean : Bool) :
    PState → List Profile → PState × LoopRes
  | s, [] => (s, LoopRes.done [])
  | s, cfg :: rest =>
    match runProfile w s cfg path command clean with
    | (s, StepRes.exited code) => (s, LoopRes.exited code)
    | (s, StepRes.raised msg) => (s, LoopRes.raised msg)
    | (s, StepRes.ok info) =>
      match runLoop w path command clean s rest with
      | (s2, LoopRes.done infos) => (s2, LoopRes.done (info :: infos))
      | out => out

/-- What the process produces: a normal return value or `sys.exit(code)`. -/
inductive ProgOut where
  | exit (code : Nat)
  | ret (infos : List DockerInfo)
deriving DecidableEq

/-- `app.run_config(path, config_list, command, clean)`.  `docker_client()`
exits the process with code 1 when the engine connection cannot be
acquired.  An exception escaping a loop iteration is caught by the
surrounding `except` clause, which returns `[]`; otherwise the collected
`info_list` is returned. -/
def run_config (w : World) (path : String) (config_list : List Profile)
    (command : String) (clean : Bool) : PState × ProgOut :=
  if w.connectOk then
    match runLoop w path (default_command command) clean w.initState config_list with
    | (s, LoopRes.exited code) => (s, ProgOut.exit code)
    | (s, LoopRes.raised _) => (s, ProgOut.ret [])
    | (s, LoopRes.done infos) => (s, ProgOut.ret infos)
  else (w.initState, ProgOut.exit 1)

/-- `app.test_container(os_name, name, path, command, clean)`: connect,
run the three stages once (with an empty `os_commands` list), optionally
clean up, and return `[docker_info]`; an exception escaping the `try`
block returns `[]`; `sys.exit` paths terminate the process. -/
def test_container (w : World) (os_name name path command : String) (clean : Bool) :
    PState × ProgOut :=
  if w.connectOk then
    match generate_dockerfile w w.initState os_name name path with
    | StageOut.exited s code => (s, ProgOut.exit code)
    | StageOut.ok s gen =>
      match build_image w s name false with
      | StageOut.exited s code => (s, ProgOut.exit code)
      | StageOut.ok s bld =>
        match run_container w s name command clean with
        | RunStageOut.raised s _ => (s, ProgOut.ret [])
        | RunStageOut.ok s runr =>
          let info : DockerInfo := ⟨gen, bld, runr⟩
          if clean then
            match remove_dockerfile_app w.resolveOk s.files name with
            | none => (s, ProgOut.exit 1)
            | some files =>
              let s := { s with files := files }
              let s := { s with images := remove_image_app s.images name false }
              (s, ProgOut.ret [info])
          else (s, ProgOut.ret [info])
  else (w.initState, ProgOut.exit 1)

/-- Concrete worlds used to instantiate hypotheses: everything succeeds. -/
def okWorld : World where
  connectOk := true
  pullOk := fun _ => true
  resolveOk := true
  hasPyproject := false
  writeErr := fun _ => none
  buildOut := fun _ => BuildOutcome.ok "amd64" "linux" "10.00 MB" ""
  runOut := fun _ => RunOutcome.ok "cid0" "echo" "ok" ""
  now := 5
  images0 := []
  files0 := []
  containers0 := []

/-! ### Helper lemmas: line splitting -/

theorem splitNL_ne_nil (l : List Char) : splitNL l ≠ [] := by
  induction l with
  | nil => simp [splitNL]
  | cons c cs ih =>
    simp only [splitNL]
    split
    · simp
    · cases h : splitNL cs with
      | nil => exact absurd h ih
      | cons l ls => simp [h]

theorem splitNL_nl_cons (rest : List Char) :
    splitNL ('\n' :: rest) = [] :: splitNL rest := by
  simp [splitNL]

theorem splitNL_nlfree_append (a rest : List Char) (h : '\n' ∉ a) :
    splitNL (a ++ rest) = (a ++ (splitNL rest).headI) :: (splitNL rest).tail := by
  induction a with
  | nil =>
    cases hr : splitNL rest with
    | nil => exact absurd hr (splitNL_ne_nil rest)
    | cons l ls => simp [hr]
  | cons c cs ih =>
    have hc : c ≠ '\n' := fun hc => h (hc ▸ List.mem_cons_self c cs)
    have hcs : '\n' ∉ cs := fun hm => h (List.mem_cons_of_mem c hm)
    simp only [List.cons_append, splitNL, List.append_eq]
    rw [if_neg (fun he => hc he), ih hcs]

theorem splitNL_nlfree (a : List Char) (h : '\n' ∉ a) : splitNL a = [a] := by
  have := splitNL_nlfree_append a [] h
  simpa [splitNL] using this

theorem toDecimalAux_congr (n : Nat) : ∀ fuel1 fuel2 : Nat, n < fuel1 → n < fuel2 →
    toDecimalAux fuel1 n = toDecimalAux fuel2 n := by
  induction n using Nat.strong_induction_on with
  | _ n ih =>
    intro fuel1 fuel2 h1 h2
    cases fuel1 with
    | zero => omega
    | succ f1 =>
      cases fuel2 with
      | zero => omega
      | succ f2 =>
        simp only [toDecimalAux]
        split
        · rfl
        · rename_i hn
          have hd : n / 10 < n := Nat.div_lt_self (by omega) (by omega)
          rw [ih (n / 10) hd f1 f2 (by omega) (by omega)]

theorem toDecimal_lt (n : Nat) (h : n < 10) : toDecimal n = [Nat.digitChar n] := by
  simp [toDecimal, toDecimalAux, h]

theorem toDecimal_ge (n : Nat) (h : ¬ n < 10) :
    toDecimal n = toDecimal (n / 10) ++ [Nat.digitChar (n % 10)] := by
  have hd : n / 10 < n := Nat.div_lt_self (by omega) (by omega)
  simp only [toDecimal]
  rw [show toDecimalAux (n + 1) n =
      if n < 10 then [Nat.digitChar n]
      else toDecimalAux n (n / 10) ++ [Nat.digitChar (n % 10)] from rfl]
  rw [if_neg h, toDecimalAux_congr (n / 10) n (n / 10 + 1) (by omega) (by omega)]

theorem toDecimal_ne_nil (n : Nat) : toDecimal n ≠ [] := by
  by_cases h : n < 10
  · rw [toDecimal_lt n h]
    simp
  · rw [toDecimal_ge n h]
    simp

theorem digitChar_inj_lt (a b : Nat) (ha : a < 10) (hb : b < 10)
    (h : Nat.digitChar a = Nat.digitChar b) : a = b := by
  have hfin : ∀ x : Fin 10, ∀ y : Fin 10,
      Nat.digitChar x.val = Nat.digitChar y.val → x = y := by decide
  have := hfin ⟨a, ha⟩ ⟨b, hb⟩ h
  exact congrArg Fin.val this

theorem toDecimal_inj (m : Nat) : ∀ n, toDecimal m = toDecimal n → m = n := by
  induction m using Nat.strong_induction_on with
  | _ m ih =>
    intro n h
    by_cases hm : m < 10 <;> by_cases hn : n < 10
    · rw [toDecimal_lt m hm, toDecimal_lt n hn] at h
      exact digitChar_inj_lt m n hm hn (List.singleton_inj.mp h)
    · rw [toDecimal_lt m hm, toDecimal_ge n hn] at h
      have hlen := congrArg List.length h
      simp at hlen
      exact absurd hlen (toDecimal_ne_nil (n / 10))
    · rw [toDecimal_ge m hm, toDecimal_lt n hn] at h
      have hlen := congrArg List.length h
      simp at hlen
      exact absurd hlen (toDecimal_ne_nil (m / 10))
    · rw [toDecimal_ge m hm, toDecimal_ge n hn] at h
      have h2 := congrArg List.reverse h
      simp at h2
      have hdiv : m / 10 = n / 10 :=
        ih (m / 10) (Nat.div_lt_self (by omega) (by omega)) (n / 10) h2.2
      have hmod : m % 10 = n % 10 :=
        digitChar_inj_lt _ _ (Nat.mod_lt m (by omega)) (Nat.mod_lt n (by omega)) h2.1
      omega

theorem natToString_inj (m n : Nat) (h : natToString m = natToString n) : m = n :=
  toDecimal_inj m n (congrArg String.data h)

theorem container_name_inj_time (image_tag : String) (t1 t2 : Nat)
    (h : container_name image_tag t1 = container_name image_tag t2) : t1 = t2 := by
  have hd := congrArg String.data h
  simp only [container_name, String.data_append, List.append_assoc, natToString] at hd
  exact toDecimal_inj t1 t2
    (List.append_cancel_left (List.append_cancel_left (List.append_cancel_left hd)))

theorem nl_data : "\n".data = ['\n'] := rfl

theorem mk_data (s : String) : (⟨s.data⟩ : String) = s := rfl

theorem splitNL_joinNL_append (l : List String) (rest : List Char) (hne : l ≠ [])
    (h : ∀ s ∈ l, '\n' ∉ s.data) :
    splitNL ((joinNL l).data ++ '\n' :: rest) = l.map String.data ++ splitNL rest := by
  induction l with
  | nil => exact absurd rfl hne
  | cons x xs ih =>
    cases xs with
    | nil =>
      rw [joinNL, splitNL_nlfree_append x.data _ (h x (List.mem_cons_self x [])),
        splitNL_nl_cons]
      simp
    | cons y ys =>
      have hx : '\n' ∉ x.data := h x (List.mem_cons_self x (y :: ys))
      have hrest : ∀ s ∈ y :: ys, '\n' ∉ s.data :=
        fun s hs => h s (List.mem_cons_of_mem x hs)
      rw [show joinNL (x :: y :: ys) = x ++ "\n" ++ joinNL (y :: ys) from rfl]
      simp only [String.data_append, nl_data, List.append_assoc, List.singleton_append,
        List.cons_append, List.nil_append]
      rw [splitNL_nlfree_append x.data _ hx]
      simp only [splitNL_nl_cons]
      rw [ih (List.cons_ne_nil y ys) hrest]
      simp

theorem splitNL_joinNL (l : List String) (hne : l ≠ [])
    (h : ∀ s ∈ l, '\n' ∉ s.data) :
    splitNL (joinNL l).data = l.map String.data := by
  induction l with
  | nil => exact absurd rfl hne
  | cons x xs ih =>
    cases xs with
    | nil => rw [joinNL, splitNL_nlfree x.data (h x (List.mem_cons_self x []))]; rfl
    | cons y ys =>
      have hx : '\n' ∉ x.data := h x (List.mem_cons_self x (y :: ys))
      have hrest : ∀ s ∈ y :: ys, '\n' ∉ s.data :=
        fun s hs => h s (List.mem_cons_of_mem x hs)
      rw [show joinNL (x :: y :: ys) = x ++ "\n" ++ joinNL (y :: ys) from rfl]
      simp only [String.data_append, nl_data, List.append_assoc, List.singleton_append,
        List.cons_append, List.nil_append]
      rw [splitNL_nlfree_append x.data _ hx]
      simp only [splitNL_nl_cons]
      rw [ih (List.cons_ne_nil y ys) hrest]
      simp

theorem mk_append (a b : String) : (⟨a.data ++ b.data⟩ : String) = a ++ b := rfl

theorem splitNL_cons_ne (c : Char) (rest : List Char) (h : ¬ c = '\n') :
    splitNL (c :: rest) = (c :: (splitNL rest).headI) :: (splitNL rest).tail := by
  have := splitNL_nlfree_append [c] rest (by simpa using Ne.symm h)
  simpa using this

theorem map_mk_data (l : List String) :
    l.map ((fun d => (⟨d⟩ : String)) ∘ String.data) = l := by
  induction l with
  | nil => rfl
  | cons x xs ih => simpa [Function.comp, mk_data] using ih

set_option maxRecDepth 8192 in
theorem strLines_dockerfile_template (os : String) (cmds : List String) (m : Bool)
    (hos : '\n' ∉ os.data) (hc : ∀ c ∈ cmds, '\n' ∉ c.data) (hne : cmds ≠ []) :
    strLines (dockerfile_template os cmds m) =
      ("FROM " ++ os) :: "" ::
      "COPY --from=ghcr.io/astral-sh/uv:latest /uv /uvx /bin/" :: "WORKDIR /app" :: "" ::
      (if m then "COPY pyproject.toml /app/pyproject.toml" else "# no pyproject detected") ::
      "" :: "ADD . /app" :: "" ::
      (cmds.map (fun c => "RUN " ++ c) ++ [""]) := by
  obtain ⟨c0, ct, rfl⟩ : ∃ c0 ct, cmds = c0 :: ct := by
    cases cmds with
    | nil => exact absurd rfl hne
    | cons a b => exact ⟨a, b, rfl⟩
  have hJ : ∀ s ∈ (c0 :: ct).map (fun cmd => "RUN " ++ cmd), '\n' ∉ s.data := by
    intro s hs
    rw [List.mem_map] at hs
    obtain ⟨c, hcm, rfl⟩ := hs
    rw [String.data_append]
    simp only [List.mem_append, not_or]
    exact ⟨by decide, hc c hcm⟩
  have hJne : (c0 :: ct).map (fun cmd => "RUN " ++ cmd) ≠ [] := by simp
  generalize hJl : (c0 :: ct).map (fun cmd => "RUN " ++ cmd) = Jl at hJ hJne ⊢
  cases m <;>
  · simp only [strLines, dockerfile_template, List.isEmpty_cons, Bool.false_eq_true,
      if_false, if_true, hJl]
    simp +decide only [String.data_append, nl_data, List.append_assoc,
      List.singleton_append, List.cons_append, List.nil_append, splitNL_cons_ne,
      splitNL_nl_cons, splitNL_nlfree_append os.data, hos, List.headI, List.tail_cons,
      List.append_nil]
    rw [splitNL_joinNL_append Jl [] hJne hJ]
    simp +decide [mk_append, mk_data, List.map_map, Function.comp, String.ext_iff,
      String.data_append, splitNL, map_mk_data]

set_option maxRecDepth 8192 in
theorem strLines_get_template (os : String) (cmds : List String)
    (hos : '\n' ∉ os.data) (hc : ∀ c ∈ cmds, '\n' ∉ c.data) (hne : cmds ≠ []) :
    strLines (get_template os cmds) =
      ("FROM " ++ os) :: "COPY --from=ghcr.io/astral-sh/uv:latest /uv /uvx /bin/" ::
      "WORKDIR /app" :: "ADD . /app" :: cmds.map (fun c => "RUN " ++ c) := by
  obtain ⟨c0, ct, rfl⟩ : ∃ c0 ct, cmds = c0 :: ct := by
    cases cmds with
    | nil => exact absurd rfl hne
    | cons a b => exact ⟨a, b, rfl⟩
  have hJ : ∀ s ∈ (c0 :: ct).map (fun cmd => "RUN " ++ cmd), '\n' ∉ s.data := by
    intro s hs
    rw [List.mem_map] at hs
    obtain ⟨c, hcm, rfl⟩ := hs
    rw [String.data_append]
    simp only [List.mem_append, not_or]
    exact ⟨by decide, hc c hcm⟩
  have hJne : (c0 :: ct).map (fun cmd => "RUN " ++ cmd) ≠ [] := by simp
  generalize hJl : (c0 :: ct).map (fun cmd => "RUN " ++ cmd) = Jl at hJ hJne ⊢
  simp only [strLines, get_template, List.isEmpty_cons, Bool.false_eq_true,
    if_false, hJl]
  simp +decide only [String.data_append, nl_data, List.append_assoc,
    List.singleton_append, List.cons_append, List.nil_append, splitNL_cons_ne,
    splitNL_nl_cons, splitNL_nlfree_append os.data, hos, List.headI, List.tail_cons,
    List.append_nil]
  rw [splitNL_joinNL Jl hJne hJ]
  simp +decide [mk_append, mk_data, List.map_map, Function.comp, String.ext_iff,
    String.data_append, splitNL, map_mk_data]

/-! ### Helper lemmas: reaper -/

theorem remove_container_app_length (cid : String) (cs : List Container) :
    cs.length ≤ (remove_container_app cid cs).length + 1 ∧
      (remove_container_app cid cs).length ≤ cs.length := by
  induction cs with
  | nil => simp [remove_container_app]
  | cons c cs ih =>
    rw [remove_container_app]
    split
    · constructor <;> simp
    · constructor <;> (simp only [List.length_cons]; omega)

theorem remove_container_app_no_match (cid : String) (cs : List Container)
    (h : ∀ c ∈ cs, c.name ≠ cid) : remove_container_app cid cs = cs := by
  induction cs with
  | nil => rfl
  | cons c cs ih =>
    rw [remove_container_app, if_neg (h c (List.mem_cons_self c cs))]
    rw [ih (fun x hx => h x (List.mem_cons_of_mem c hx))]

theorem remove_container_app_first (cid : String) (c : Container)
    (pre post : List Container) (hpre : ∀ x ∈ pre, x.name ≠ cid) (hc : c.name = cid) :
    remove_container_app cid (pre ++ c :: post) = pre ++ post := by
  induction pre with
  | nil => rw [List.nil_append, remove_container_app, if_pos hc, List.nil_append]
  | cons p ps ih =>
    rw [List.cons_append, remove_container_app,
      if_neg (hpre p (List.mem_cons_self p ps)), List.cons_append,
      ih (fun x hx => hpre x (List.mem_cons_of_mem p hx))]

theorem remove_container_app_twice (cid : String) (cs : List Container)
    (hnodup : (cs.map Container.name).Nodup) :
    remove_container_app cid (remove_container_app cid cs) =
      remove_container_app cid cs := by
  induction cs with
  | nil => rfl
  | cons c cs ih =>
    rw [remove_container_app]
    split
    · rename_i hcname
      apply remove_container_app_no_match
      intro x hx hxname
      simp at hnodup
      exact hnodup.1 x hx (hxname.trans hcname.symm)
    · rename_i hcname
      rw [remove_container_app, if_neg hcname, ih (by simp at hnodup; exact hnodup.2)]

theorem remove_container_backend_length (cid : String) (cs : List Container) :
    cs.length ≤ (remove_container_backend cid cs).length + 1 ∧
      (remove_container_backend cid cs).length ≤ cs.length := by
  induction cs with
  | nil => simp [remove_container_backend]
  | cons c cs ih =>
    rw [remove_container_backend]
    split
    · constructor <;> simp
    · constructor <;> (simp only [List.length_cons]; omega)

theorem remove_container_backend_no_match (cid : String) (cs : List Container)
    (h : ∀ c ∈ cs, c.name ≠ cid ∧ c.id ≠ cid) :
    remove_container_backend cid cs = cs := by
  induction cs with
  | nil => rfl
  | cons c cs ih =>
    have hc := h c (List.mem_cons_self c cs)
    rw [remove_container_backend, if_neg (by tauto)]
    rw [ih (fun x hx => h x (List.mem_cons_of_mem c hx))]

/-! ### Helper lemmas: pipeline -/

theorem generate_dockerfile_ok (w : World) (s : PState) (os_name image_tag path : String)
    (hpull : w.pullOk os_name = true) (hres : w.resolveOk = true) :
    ∃ s2 r, generate_dockerfile w s os_name image_tag path = StageOut.ok s2 r := by
  unfold generate_dockerfile
  simp only [hpull, hres, if_true]
  cases hw : w.writeErr image_tag <;> exact ⟨_, _, rfl⟩

theorem build_image_ok (w : World) (s : PState) (image_tag : String) (clean : Bool)
    (hres : w.resolveOk = true) :
    ∃ s2 r, build_image w s image_tag clean = StageOut.ok s2 r := by
  unfold build_image
  simp only [hres, if_true]
  cases hb : w.buildOut image_tag <;> exact ⟨_, _, rfl⟩

theorem run_container_ok (w : World) (s : PState) (image_tag command : String)
    (clean : Bool) (hrun : ∀ msg, w.runOut image_tag ≠ RunOutcome.raisesAfter msg) :
    ∃ s2 r, run_container w s image_tag command clean = RunStageOut.ok s2 r := by
  unfold run_container
  by_cases him : image_tag ∈ s.images
  · simp only [him, if_true]
    cases hr : w.runOut image_tag
    · dsimp only
      split <;> exact ⟨_, _, rfl⟩
    · exact ⟨_, _, rfl⟩
    · exact absurd hr (hrun _)
  · simp only [him, if_false]
    exact ⟨_, _, rfl⟩

theorem runProfile_ok (w : World) (s : PState) (cfg : Profile) (path command : String)
    (clean : Bool) (hpull : w.pullOk cfg.os_name = true) (hres : w.resolveOk = true)
    (hrun : ∀ msg, w.runOut cfg.image_tag ≠ RunOutcome.raisesAfter msg) :
    ∃ s2 info, runProfile w s cfg path command clean = (s2, StepRes.ok info) := by
  obtain ⟨s1, gen, h1⟩ :=
    generate_dockerfile_ok w s cfg.os_name cfg.image_tag path hpull hres
  obtain ⟨s2, bld, h2⟩ := build_image_ok w s1 cfg.image_tag false hres
  obtain ⟨s3, runr, h3⟩ := run_container_ok w s2 cfg.image_tag command clean hrun
  rw [runProfile, h1]
  dsimp only
  rw [h2]
  dsimp only
  rw [h3]
  dsimp only
  simp only [remove_dockerfile_app, hres, if_true]
  split <;> exact ⟨_, _, rfl⟩

theorem runLoop_cons_fst (w : World) (path command : String) (clean : Bool)
    (s s2 : PState) (cfg : Profile) (rest : List Profile) (info : DockerInfo)
    (hstep : runProfile w s cfg path command clean = (s2, StepRes.ok info)) :
    (runLoop w path command clean s (cfg :: rest)).1 =
      (runLoop w path command clean s2 rest).1 := by
  rw [runLoop, hstep]
  dsimp only
  cases hout : runLoop w path command clean s2 rest with
  | mk s3 out => cases out <;> rfl

theorem runLoop_done (w : World) (path command : String) (clean : Bool)
    (cfgs : List Profile) :
    ∀ (s : PState), (∀ cfg ∈ cfgs, w.pullOk cfg.os_name = true) → w.resolveOk = true →
      (∀ cfg ∈ cfgs, ∀ msg, w.runOut cfg.image_tag ≠ RunOutcome.raisesAfter msg) →
      ∃ infos, (runLoop w path command clean s cfgs).2 = LoopRes.done infos ∧
        infos.length = cfgs.length ∧
        ∀ i (hi : i < cfgs.length),
          ∃ info, infos[i]? = some info ∧
            (runProfile w (runLoop w path command clean s (cfgs.take i)).1
              cfgs[i] path command clean).2 = StepRes.ok info := by
  induction cfgs with
  | nil =>
    intro s _ _ _
    exact ⟨[], rfl, rfl, fun i hi => absurd hi (by simp)⟩
  | cons cfg rest ih =>
    intro s hpull hres hrun
    obtain ⟨s2, info, hstep⟩ := runProfile_ok w s cfg path command clean
      (hpull cfg (List.mem_cons_self cfg rest)) hres
      (hrun cfg (List.mem_cons_self cfg rest))
    obtain ⟨infos, hdone, hlen, hidx⟩ := ih s2
      (fun c hc => hpull c (List.mem_cons_of_mem cfg hc)) hres
      (fun c hc => hrun c (List.mem_cons_of_mem cfg hc))
    refine ⟨info :: infos, ?_, by simp [hlen], ?_⟩
    · rw [runLoop, hstep]
      dsimp only
      cases hout : runLoop w path command clean s2 rest with
      | mk s3 out =>
        rw [hout] at hdone
        dsimp at hdone
        rw [hdone]
    · intro i hi
      cases i with
      | zero =>
        refine ⟨info, by simp, ?_⟩
        simp only [List.take_zero, List.getElem_cons_zero]
        rw [show runLoop w path command clean s [] = (s, LoopRes.done []) from rfl]
        dsimp only
        rw [hstep]
      | succ j =>
        have hj : j < rest.length := by simpa using hi
        obtain ⟨info2, hget, hprof⟩ := hidx j hj
        refine ⟨info2, by simpa using hget, ?_⟩
        have htake : (cfg :: rest).take (j + 1) = cfg :: rest.take j := rfl
        rw [htake, runLoop_cons_fst w path command clean s s2 cfg (rest.take j) info hstep]
        simpa using hprof

theorem runProfile_build_failure (w : World) (s : PState) (cfg : Profile)
    (path command : String) (clean : Bool) (log : String)
    (hpull : w.pullOk cfg.os_name = true) (hres : w.resolveOk = true)
    (hwrite : w.writeErr cfg.image_tag = none)
    (hbuild : w.buildOut cfg.image_tag = BuildOutcome.buildError log)
    (hnotin : cfg.image_tag ∉ s.images) (hneq : cfg.image_tag ≠ cfg.os_name) :
    ∃ s3, runProfile w s cfg path command clean =
      (s3, StepRes.ok
        ⟨GenResult.ok (dfName cfg.image_tag) (path ++ "/" ++ dfName cfg.image_tag)
            cfg.os_name,
          BuildResult.stderr ("BuildError:" ++ "\n" ++ log),
          RunResult.stderr (imageNotFoundMsg cfg.image_tag)⟩) := by
  have hmem : cfg.image_tag ∉
      (if cfg.os_name ∈ s.images then s.images else s.images ++ [cfg.os_name]) := by
    split
    · exact hnotin
    · simp only [List.mem_append, List.mem_singleton]
      rintro (h | h)
      · exact hnotin h
      · exact hneq h
  simp only [runProfile, generate_dockerfile, build_image, run_container,
    remove_dockerfile_app, hpull, hres, hwrite, hbuild, if_true]
  simp only [hmem, if_false]
  split <;> exact ⟨_, rfl⟩

/-! ### Claims -/

/-- Claim C1, counterexample: in a batch of two profiles whose base images
cannot be pulled, `_image_exists` calls `sys.exit(1)` during the first
profile's generate stage, so `run_config` terminates the process instead
of returning two result records — the batch runner does **not** return one
record per profile "regardless of how many individual profiles fail at any
stage". -/
theorem run_config_pull_failure_kills_batch :
    (run_config { okWorld with pullOk := fun _ => false } "."
      [⟨"a", "debian", []⟩, ⟨"b", "ubuntu", []⟩] "" false).2 = ProgOut.exit 1 := by
  decide

/-- Claim C1 (amended): provided the engine connection is acquired, every
profile's base-image pull and the directory resolution succeed, and no
unexpected exception escapes a run stage, `run_config` returns exactly one
result record per input profile, in input order: the i-th output is the
record produced by running the i-th profile at the state reached after the
first i profiles.  (Write, build and run failures are caught per stage and
recorded in the result dicts, so they do not reduce the count.) -/
theorem run_config_one_result_per_profile (w : World) (path command : String)
    (clean : Bool) (cfgs : List Profile)
    (hconn : w.connectOk = true)
    (hpull : ∀ cfg ∈ cfgs, w.pullOk cfg.os_name = true)
    (hres : w.resolveOk = true)
    (hrun : ∀ cfg ∈ cfgs, ∀ msg, w.runOut cfg.image_tag ≠ RunOutcome.raisesAfter msg) :
    ∃ infos, (run_config w path cfgs command clean).2 = ProgOut.ret infos ∧
      infos.length = cfgs.length ∧
      ∀ i (hi : i < cfgs.length),
        ∃ info, infos[i]? = some info ∧
          (runProfile w
            (runLoop w path (default_command command) clean w.initState (cfgs.take i)).1
            cfgs[i] path (default_command command) clean).2 = StepRes.ok info := by
  obtain ⟨infos, hdone, hlen, hidx⟩ :=
    runLoop_done w path (default_command command) clean cfgs w.initState hpull hres hrun
  refine ⟨infos, ?_, hlen, hidx⟩
  simp only [run_config, hconn, eq_self_iff_true, if_true]
  cases hout : runLoop w path (default_command command) clean w.initState cfgs with
  | mk s2 out =>
    rw [hout] at hdone
    dsimp at hdone
    rw [hdone]

/-- Instance of `run_config_one_result_per_profile` at a concrete world and
one-profile batch. -/
theorem run_config_one_result_per_profile_case :
    okWorld.connectOk = true ∧
    ∃ infos, (run_config okWorld "." [⟨"a", "debian", []⟩] "" false).2 =
        ProgOut.ret infos ∧
      infos.length = [(⟨"a", "debian", []⟩ : Profile)].length ∧
      ∀ i (hi : i < [(⟨"a", "debian", []⟩ : Profile)].length),
        ∃ info, infos[i]? = some info ∧
          (runProfile okWorld
            (runLoop okWorld "." (default_command "") false okWorld.initState
              ([(⟨"a", "debian", []⟩ : Profile)].take i)).1
            [(⟨"a", "debian", []⟩ : Profile)][i] "." (default_command "") false).2 =
            StepRes.ok info :=
  ⟨rfl, run_config_one_result_per_profile okWorld "." "" false [⟨"a", "debian", []⟩]
    rfl (fun _ _ => rfl) rfl (fun _ _ _ h => RunOutcome.noConfusion h)⟩

/-- Claim C2, evaluation at the failing input: for a profile whose
Dockerfile write fails (generation failure, `{"stderr": ...}` returned by
`generate_dockerfile`), `run_config` still invokes `build_image` and
`run_container` afterwards — the trace records all three stage calls — and
the later stages even operate on the stale state.  The spec's transition
rule (on entering FAILED no further stage executes) is what §9 of the spec
adopts, and it explicitly rejects this keep-going behaviour as a defect,
so the code, not the claim, is wrong here. -/
theorem run_config_runs_later_stages_after_generation_failure :
    ((run_config { okWorld with writeErr := fun _ => some "OSError:\ncannot write" } "."
        [⟨"a", "debian", []⟩] "" false).1.trace =
      [Event.generate "a", Event.build "a", Event.run "a"]) ∧
    ((run_config { okWorld with writeErr := fun _ => some "OSError:\ncannot write" } "."
        [⟨"a", "debian", []⟩] "" false).2 = ProgOut.ret
      [⟨GenResult.stderr "OSError:\ncannot write",
        BuildResult.ok "a" "amd64" "linux" "10.00 MB" "",
        RunResult.ok "container_test_a_5" "cid0" "echo" "ok" ""⟩]) := by
  decide

/-- Claim C3: when the docker client connection cannot be acquired,
`docker_client` exits the process with code 1 before the profile loop
starts: `run_config` produces `sys.exit(1)` and its trace shows zero
generate/build/run stage calls for any profile. -/
theorem run_config_connection_failure_aborts (w : World) (path command : String)
    (clean : Bool) (cfgs : List Profile) (hconn : w.connectOk = false) :
    run_config w path cfgs command clean = (w.initState, ProgOut.exit 1) ∧
      (run_config w path cfgs command clean).1.trace = [] := by
  refine ⟨?_, ?_⟩ <;> simp [run_config, hconn, World.initState]

/-- Instance of `run_config_connection_failure_aborts` at a concrete world. -/
theorem run_config_connection_failure_aborts_case :
    ({ okWorld with connectOk := false } : World).connectOk = false ∧
    run_config { okWorld with connectOk := false } "." [⟨"a", "debian", []⟩] "" false =
      (World.initState { okWorld with connectOk := false }, ProgOut.exit 1) :=
  ⟨rfl, (run_config_connection_failure_aborts { okWorld with connectOk := false }
    "." "" false [⟨"a", "debian", []⟩] rfl).1⟩

/-- Claim C4: each removal operation treats a missing resource as a
non-error, so removing the same target twice never surfaces an error on
the second call: `remove_dockerfile` hits `FileNotFoundError`, which its
catch-all clause swallows; `DockerBackend.remove_image` hits
`ImageNotFound`, which is caught before the re-raising `APIError` branch
(so even a faulting engine cannot make the second call raise); and
`app.remove_container` finds no name match and silently does nothing.  In
each case the second call also leaves the state unchanged. -/
theorem reaper_second_removal_is_noop (files imgs : List String)
    (cs : List Container) (image_tag container_id : String) (api_fault : Bool)
    (hfiles : files.Nodup) (himgs : imgs.Nodup)
    (hnames : (cs.map Container.name).Nodup) :
    (remove_dockerfile_app true files image_tag =
        some (files.erase (dfName image_tag)) ∧
      remove_dockerfile_app true (files.erase (dfName image_tag)) image_tag =
        some (files.erase (dfName image_tag))) ∧
    (remove_image_backend imgs image_tag false = Except.ok (imgs.erase image_tag) ∧
      remove_image_backend (imgs.erase image_tag) image_tag api_fault =
        Except.ok (imgs.erase image_tag)) ∧
    remove_container_app container_id (remove_container_app container_id cs) =
      remove_container_app container_id cs := by
  refine ⟨⟨rfl, ?_⟩, ⟨?_, ?_⟩, remove_container_app_twice container_id cs hnames⟩
  · simp only [remove_dockerfile_app, if_true]
    rw [List.erase_of_not_mem (hfiles.not_mem_erase)]
  · unfold remove_image_backend
    split
    · rfl
    · rename_i hmem
      rw [List.erase_of_not_mem hmem]
  · unfold remove_image_backend
    rw [if_neg (himgs.not_mem_erase)]

/-- Instance of `reaper_second_removal_is_noop` at concrete states. -/
theorem reaper_second_removal_is_noop_case :
    (["Dockerfile.a"] : List String).Nodup ∧
    ((remove_dockerfile_app true ["Dockerfile.a"] "a" = some [] ∧
        remove_dockerfile_app true [] "a" = some []) ∧
      (remove_image_backend ["a"] "a" false = Except.ok [] ∧
        remove_image_backend [] "a" true = Except.ok []) ∧
      remove_container_app "web" (remove_container_app "web" [⟨"web", "id1"⟩]) =
        remove_container_app "web" [⟨"web", "id1"⟩]) :=
  ⟨by decide, reaper_second_removal_is_noop ["Dockerfile.a"] ["a"] [⟨"web", "id1"⟩]
    "a" "web" true (by decide) (by decide) (by decide)⟩

/-- Claim C5, counterexample: `factory.run_container` names its container
`f"container_test_{image_tag}"` with no timestamp, so two calls at
different clock values (here 0 and 1) produce the **same** container name
— the claim's "different container names whenever the clock has advanced"
fails for this variant. -/
theorem factory_container_name_ignores_clock :
    (0 : Nat) ≠ 1 ∧ container_name_factory "a" 0 = container_name_factory "a" 1 := by
  decide

/-- Claim C5 (amended): for the `DockerBackend.run` / `app.run_container`
naming scheme, two calls for the same profile give the same sanitized
image tag (`_get_tag_name` depends only on the name), and different
container names whenever the clock has advanced; `factory.run_container`
is the exception, its container name omits the timestamp. -/
theorem backend_same_tag_fresh_container_names (os_name : String) (t1 t2 : Nat)
    (h : t1 ≠ t2) :
    (backend_run_ids os_name t1).1 = (backend_run_ids os_name t2).1 ∧
      (backend_run_ids os_name t1).2 ≠ (backend_run_ids os_name t2).2 :=
  ⟨rfl, fun he => h (container_name_inj_time (get_tag_name os_name) t1 t2 he)⟩

/-- Instance of `backend_same_tag_fresh_container_names` at a concrete
base-image name and clock values. -/
theorem backend_same_tag_fresh_container_names_case :
    (0 : Nat) ≠ 1 ∧
    ((backend_run_ids "debian:12" 0).1 = (backend_run_ids "debian:12" 1).1 ∧
      (backend_run_ids "debian:12" 0).2 ≠ (backend_run_ids "debian:12" 1).2) :=
  ⟨by decide, backend_same_tag_fresh_container_names "debian:12" 0 1 (by decide)⟩

/-- Claim C6, counterexample: with identical caller-supplied arguments
(base image `"debian"`, empty command list), the synthesized text differs
between a filesystem where `pyproject.toml` exists and one where it does
not — `_dockerfile_template` performs the marker check itself by querying
the filesystem; no marker boolean is passed in by the caller (the Python
signature is `_dockerfile_template(os_name, os_commands)`). -/
theorem dockerfile_template_reads_filesystem :
    dockerfile_template "debian" [] true ≠ dockerfile_template "debian" [] false := by
  decide

/-- Claim C6 (amended): the synthesizers are deterministic in the base
image, the command list **and** the filesystem marker state — two
invocations that see the same marker state produce identical text — but
the marker checks are performed inside the synthesizer against the
filesystem, not passed in as booleans by the caller. -/
theorem dockerfile_template_deterministic (os_name : String)
    (os_commands : List String) (m1 m2 l1 l2 : Bool) (hpy : m1 = m2)
    (hlock : l1 = l2) :
    dockerfile_template os_name os_commands m1 =
        dockerfile_template os_name os_commands m2 ∧
      dockerfile_content os_name os_commands m1 l1 =
        dockerfile_content os_name os_commands m2 l2 := by
  rw [hpy, hlock]
  exact ⟨rfl, rfl⟩

/-- Instance of `dockerfile_template_deterministic` at concrete inputs. -/
theorem dockerfile_template_deterministic_case :
    (true = true) ∧
    (dockerfile_template "debian" [] true = dockerfile_template "debian" [] true ∧
      dockerfile_content "debian" [] true true = dockerfile_content "debian" [] true true) :=
  ⟨rfl, dockerfile_template_deterministic "debian" [] true true true true rfl rfl⟩

/-- Claim C7: for every base image and non-empty newline-free command
list, the synthesized descriptor splits into lines with `FROM <base>` as
the very first line and one `RUN <cmd>` line per command, in input order,
after all base directives — in both `app._dockerfile_template` (lines 9
onward are the RUN lines) and `DockerBackend._get_template` (lines 4
onward).  In particular for base `debian:bookworm-slim` and command
`apt-get update` the content has a `FROM debian:bookworm-slim` line before
its `RUN apt-get update` line. -/
theorem dockerfile_from_before_run_lines (os_name : String) (cmds : List String)
    (m : Bool) (hos : '\n' ∉ os_name.data) (hc : ∀ c ∈ cmds, '\n' ∉ c.data)
    (hne : cmds ≠ []) :
    strLines (dockerfile_template os_name cmds m) =
      ("FROM " ++ os_name) :: "" ::
      "COPY --from=ghcr.io/astral-sh/uv:latest /uv /uvx /bin/" :: "WORKDIR /app" :: "" ::
      (if m then "COPY pyproject.toml /app/pyproject.toml" else "# no pyproject detected") ::
      "" :: "ADD . /app" :: "" :: (cmds.map (fun c => "RUN " ++ c) ++ [""]) ∧
    strLines (get_template os_name cmds) =
      ("FROM " ++ os_name) :: "COPY --from=ghcr.io/astral-sh/uv:latest /uv /uvx /bin/" ::
      "WORKDIR /app" :: "ADD . /app" :: cmds.map (fun c => "RUN " ++ c) :=
  ⟨strLines_dockerfile_template os_name cmds m hos hc hne,
   strLines_get_template os_name cmds hos hc hne⟩

/-- Instance of `dockerfile_from_before_run_lines` at the claim's scenario
profile (base `debian:bookworm-slim`, command `apt-get update`). -/
theorem dockerfile_from_before_run_lines_case :
    ('\n' ∉ "debian:bookworm-slim".data) ∧
    (strLines (dockerfile_template "debian:bookworm-slim" ["apt-get update"] false) =
      ("FROM " ++ "debian:bookworm-slim") :: "" ::
      "COPY --from=ghcr.io/astral-sh/uv:latest /uv /uvx /bin/" :: "WORKDIR /app" :: "" ::
      "# no pyproject detected" ::
      "" :: "ADD . /app" :: "" ::
      (["apt-get update"].map (fun c => "RUN " ++ c) ++ [""]) ∧
    strLines (get_template "debian:bookworm-slim" ["apt-get update"]) =
      ("FROM " ++ "debian:bookworm-slim") ::
      "COPY --from=ghcr.io/astral-sh/uv:latest /uv /uvx /bin/" ::
      "WORKDIR /app" :: "ADD . /app" ::
      ["apt-get update"].map (fun c => "RUN " ++ c)) :=
  ⟨by decide, dockerfile_from_before_run_lines "debian:bookworm-slim" ["apt-get update"]
    false (by decide) (by decide) (by decide)⟩

/-- Claim C8: when a profile's build fails with an engine build error
(and the tag was not already an engine image), the profile's record in the
batch output has the descriptor dict populated, the image field holding
only the `BuildError` text with the build log (no `ImageRecord`), and the
container field holding only the `ImageNotFound` text (no
`ContainerRecord`); the partially populated record is kept as this
profile's entry of the output list, in front of the remaining profiles'
records, not discarded. -/
theorem build_failure_partial_result_preserved (w : World) (s : PState) (cfg : Profile)
    (rest : List Profile) (path command : String) (clean : Bool) (log : String)
    (hpull : w.pullOk cfg.os_name = true) (hres : w.resolveOk = true)
    (hwrite : w.writeErr cfg.image_tag = none)
    (hbuild : w.buildOut cfg.image_tag = BuildOutcome.buildError log)
    (hnotin : cfg.image_tag ∉ s.images) (hneq : cfg.image_tag ≠ cfg.os_name)
    (hrest_pull : ∀ c ∈ rest, w.pullOk c.os_name = true)
    (hrest_run : ∀ c ∈ rest, ∀ msg, w.runOut c.image_tag ≠ RunOutcome.raisesAfter msg) :
    ∃ s3 infos, runLoop w path command clean s (cfg :: rest) =
      (s3, LoopRes.done
        (⟨GenResult.ok (dfName cfg.image_tag) (path ++ "/" ++ dfName cfg.image_tag)
            cfg.os_name,
          BuildResult.stderr ("BuildError:" ++ "\n" ++ log),
          RunResult.stderr (imageNotFoundMsg cfg.image_tag)⟩ :: infos)) := by
  obtain ⟨s2, hstep⟩ := runProfile_build_failure w s cfg path command clean log
    hpull hres hwrite hbuild hnotin hneq
  obtain ⟨infos, hdone, hlen, hidx⟩ :=
    runLoop_done w path command clean rest s2 hrest_pull hres hrest_run
  rw [runLoop, hstep]
  dsimp only
  cases hout : runLoop w path command clean s2 rest with
  | mk s3 out =>
    rw [hout] at hdone
    dsimp at hdone
    rw [hdone]
    exact ⟨s3, infos, rfl⟩

/-- Instance of `build_failure_partial_result_preserved` at a concrete
world whose engine reports a build error. -/
theorem build_failure_partial_result_preserved_case :
    ("a" : String) ≠ "debian" ∧
    ∃ s3 infos,
      runLoop { okWorld with buildOut := fun _ => BuildOutcome.buildError "step 1/3 failed" }
        "." "" false
        (World.initState
          { okWorld with buildOut := fun _ => BuildOutcome.buildError "step 1/3 failed" })
        [⟨"a", "debian", []⟩] =
      (s3, LoopRes.done
        (⟨GenResult.ok (dfName "a") ("." ++ "/" ++ dfName "a") "debian",
          BuildResult.stderr ("BuildError:" ++ "\n" ++ "step 1/3 failed"),
          RunResult.stderr (imageNotFoundMsg "a")⟩ :: infos)) :=
  ⟨by decide, build_failure_partial_result_preserved
    { okWorld with buildOut := fun _ => BuildOutcome.buildError "step 1/3 failed" }
    (World.initState
      { okWorld with buildOut := fun _ => BuildOutcome.buildError "step 1/3 failed" })
    ⟨"a", "debian", []⟩ [] "." "" false "step 1/3 failed" rfl rfl rfl rfl
    (by decide) (by decide)
    (fun c hc => absurd hc (List.not_mem_nil c))
    (fun c hc => absurd hc (List.not_mem_nil c))⟩

/-- Claim C9, counterexample: when the docker client connection fails,
`test_container` does not return a list at all — `docker_client` raises
`SystemExit` via `sys.exit(1)`, which the `except (ImageNotFound,
BuildError, Exception)` clause does not catch, so the process terminates
instead of the caller receiving a value. -/
theorem test_container_exits_on_connection_failure :
    (test_container { okWorld with connectOk := false } "debian" "a" "." "" false).2 =
      ProgOut.exit 1 := by
  decide

/-- Claim C9 (amended): provided none of the `sys.exit` paths fire (the
client connects, the base-image pull succeeds, the directory resolves),
`test_container` always hands its caller a list: the one-element list with
the dockerfile/image/container record when the pipeline dict is
assembled, and the empty list when an exception escapes the stages. -/
theorem test_container_returns_list (w : World) (os_name name path command : String)
    (clean : Bool) (hconn : w.connectOk = true) (hpull : w.pullOk os_name = true)
    (hres : w.resolveOk = true) :
    (∃ info, (test_container w os_name name path command clean).2 =
        ProgOut.ret [info]) ∨
      (test_container w os_name name path command clean).2 = ProgOut.ret [] := by
  obtain ⟨s1, gen, h1⟩ := generate_dockerfile_ok w w.initState os_name name path hpull hres
  obtain ⟨s2, bld, h2⟩ := build_image_ok w s1 name false hres
  simp only [test_container, hconn, eq_self_iff_true, if_true]
  rw [h1]
  dsimp only
  rw [h2]
  dsimp only
  cases hrc : run_container w s2 name command clean with
  | raised s3 msg => right; rfl
  | ok s3 runr =>
    left
    refine ⟨⟨gen, bld, runr⟩, ?_⟩
    simp only [remove_dockerfile_app, hres, if_true]
    split <;> rfl

/-- Instance of `test_container_returns_list` at a concrete world. -/
theorem test_container_returns_list_case :
    okWorld.connectOk = true ∧
    ((∃ info, (test_container okWorld "debian" "a" "." "" false).2 =
        ProgOut.ret [info]) ∨
      (test_container okWorld "debian" "a" "." "" false).2 = ProgOut.ret []) :=
  ⟨rfl, test_container_returns_list okWorld "debian" "a" "." "" false rfl rfl rfl⟩

/-- Claim C10, counterexample: `DockerBackend.remove_container` matches
`container_id in (container.name, container.id)`, so with a container
named `"web"` whose id is `"abc"`, the call with identifier `"abc"`
removes it even though **no container's name** equals the identifier — the
claim's "when no container's name matches, the call silently does
nothing" fails for this variant. -/
theorem backend_remove_container_removes_by_id :
    remove_container_backend "abc" [⟨"web", "abc"⟩] = [] ∧ ("web" : String) ≠ "abc" := by
  decide

/-- Claim C10 (amended): each variant removes at most one container per
call — `app.remove_container` the first whose **name** equals the
identifier, `DockerBackend.remove_container` the first whose name **or
id** equals it — and when nothing matches that variant's test, the call
leaves the engine's container list unchanged and returns without raising
(all engine exceptions are caught and logged). -/
theorem remove_container_at_most_one (container_id : String) (cs : List Container)
    (c : Container) (pre post : List Container) :
    (cs.length ≤ (remove_container_app container_id cs).length + 1 ∧
      (remove_container_app container_id cs).length ≤ cs.length) ∧
    ((∀ x ∈ cs, x.name ≠ container_id) →
      remove_container_app container_id cs = cs) ∧
    ((∀ x ∈ pre, x.name ≠ container_id) → c.name = container_id →
      remove_container_app container_id (pre ++ c :: post) = pre ++ post) ∧
    (cs.length ≤ (remove_container_backend container_id cs).length + 1 ∧
      (remove_container_backend container_id cs).length ≤ cs.length) ∧
    ((∀ x ∈ cs, x.name ≠ container_id ∧ x.id ≠ container_id) →
      remove_container_backend container_id cs = cs) :=
  ⟨remove_container_app_length container_id cs,
   fun h => remove_container_app_no_match container_id cs h,
   fun h1 h2 => remove_container_app_first container_id c pre post h1 h2,
   remove_container_backend_length container_id cs,
   fun h => remove_container_backend_no_match container_id cs h⟩

/-- Instance of `remove_container_at_most_one`: the first name match is
removed, and a no-match call is the identity. -/
theorem remove_container_at_most_one_case :
    remove_container_app "x" [⟨"x", "1"⟩, ⟨"y", "2"⟩] = [⟨"y", "2"⟩] ∧
      remove_container_backend "z" [⟨"x", "1"⟩] = [⟨"x", "1"⟩] :=
  ⟨(remove_container_at_most_one "x" [] ⟨"x", "1"⟩ [] [⟨"y", "2"⟩]).2.2.1
      (by decide) (by decide),
   (remove_container_at_most_one "z" [⟨"x", "1"⟩] ⟨"x", "1"⟩ [] []).2.2.2.2 (by decide)⟩
